import Mathlib

/-
Verification of the token/key issuance bot (src/bot.py, src/admin_commands.py)
against its natural-language specification.

The persistent store (Supabase tables) is modelled as lists of records in a
DB structure; each Python handler that touches the store becomes a pure Lean
function from DB (plus the inputs the handler reads from the chat transport
and from the external verification API) to DB, together with the visible
outcome and, where the order of writes matters, a log of write events.
Randomly generated identifiers (secrets.token_hex / token_urlsafe) are passed
in as parameters; their unguessability is reflected as freshness hypotheses.
Numeric amounts are rationals, standing for the exact float comparisons of
the source. Timestamps are abstract naturals.
-/

inductive TokenStatus where
  | active
  | used
deriving DecidableEq, Repr

inductive PendingStatus where
  | pending
  | approved
  | rejected
deriving DecidableEq, Repr

/- Record shapes mirror the dictionaries inserted by the source. -/

structure UserRec where
  user_id : Int
  username : Option String
  first_name : String
  last_name : Option String
  last_interaction : Nat
deriving DecidableEq, Repr

structure Package where
  id : Nat
  plan_name : String
  description : String
  amount : Rat
  validity : Int
  is_active : Bool
  created_at : Nat
deriving DecidableEq, Repr

structure UpiRoute where
  id : Nat
  upi_id : String
  name : String
  is_active : Bool
  created_at : Nat
deriving DecidableEq, Repr

structure Token where
  token_id : String
  user_id : Int
  username : String
  package_id : Nat
  transaction_id : String
  amount : Rat
  status : TokenStatus
  created_at : Nat
deriving DecidableEq, Repr

structure KeyRec where
  key : String
  user_id : Int
  package_id : Nat
  token_id : String
  validity_days : Int
  created_at : Nat
  status : String
deriving DecidableEq, Repr

structure PendingTx where
  id : Nat
  user_id : Int
  username : String
  package_id : Nat
  screenshot_file_id : String
  status : PendingStatus
  created_at : Nat
  reviewed_at : Option Nat
  reviewed_by : Option Int
deriving DecidableEq, Repr

structure AdminRec where
  telegram_id : Int
  role : Option String
  is_active : Bool
  created_at : Nat
deriving DecidableEq, Repr

structure BotSettings where
  id : Nat
  force_channel : Option String
  api_token : Option String
deriving DecidableEq, Repr

/-- The whole persistent store. nextId models the auto-increment id columns
(Supabase assigns positive serial ids; inserts below use nextId + 1). -/
structure DB where
  users : List UserRec
  packages : List Package
  upis : List UpiRoute
  tokens : List Token
  keys : List KeyRec
  pending : List PendingTx
  admins : List AdminRec
  settings : List BotSettings
  nextId : Nat
deriving DecidableEq, Repr

/- === Query helpers (bot.py lines 34-67, admin_commands.py 24-42) === -/

def get_package_by_id (st : DB) (package_id : Nat) : Option Package :=
  st.packages.find? (fun p => decide (p.id = package_id))

def get_admin_role (admins : List AdminRec) (uid : Int) : Option String :=
  match admins.find? (fun a => decide (a.telegram_id = uid ∧ a.is_active = true)) with
  | none => none
  | some a => some (a.role.getD "limited")

def is_super_admin (admins : List AdminRec) (uid : Int) : Bool :=
  decide (get_admin_role admins uid = some "super")

/-- Python truthiness of settings[0].get(api_token): absent row, absent key
and empty string all count as unconfigured. -/
def api_token_ok : List BotSettings → Bool
  | [] => false
  | s :: _ =>
    match s.api_token with
    | none => false
    | some t => decide (t ≠ "")

/- === External verification API (bot.py 157-185, admin_commands.py 44-71) === -/

/-- What the HTTP call to the settlement API can come back with: a parsed
JSON body, or any raised exception (transport error, timeout, bad JSON,
failed float coercion), which the source catches in one except block. -/
inductive ApiResp where
  | ok (status : Option String) (amount : Option Rat)
      (payer : Option String) (app : Option String)
  | failure
deriving DecidableEq, Repr

inductive VStatus where
  | SUCCESS
  | FAILED
  | ERROR
deriving DecidableEq, Repr

structure VerifyResult where
  status : VStatus
  amount : Option Rat
  payer : Option String
  app : Option String
deriving DecidableEq, Repr

/-- verify_transaction: SUCCESS exactly when the parsed body has status
SUCCESS and float(data.get(amount, 0)) equals the expected amount; any
other parsed body is FAILED; a missing or empty api_token, or a raised
exception, is ERROR. The txn_id only feeds the request URL. -/
def verify_transaction (settings : List BotSettings) (resp : ApiResp)
    (txn_id : String) (expected : Rat) : VerifyResult :=
  match settings with
  | [] => ⟨VStatus.ERROR, none, none, none⟩
  | s :: _ =>
    match s.api_token with
    | none => ⟨VStatus.ERROR, none, none, none⟩
    | some t =>
      if t = "" then ⟨VStatus.ERROR, none, none, none⟩
      else
        match resp with
        | ApiResp.failure => ⟨VStatus.ERROR, none, none, none⟩
        | ApiResp.ok status amount payer app =>
          if status = some "SUCCESS" ∧ amount.getD 0 = expected then
            ⟨VStatus.SUCCESS, amount, payer, app⟩
          else
            ⟨VStatus.FAILED, none, none, none⟩

/- === Write-event log, for claims about the order of ledger writes === -/

inductive WriteEvent where
  | insertToken (t : Token)
  | insertKey (k : KeyRec)
  | updateTokenStatus (token_id : String) (s : TokenStatus)
  | updatePending (rowId : Nat) (s : PendingStatus)
deriving DecidableEq, Repr

inductive EventKind where
  | tokenInsert
  | keyInsert
  | statusFlip
  | pendingUpdate
deriving DecidableEq, Repr

def WriteEvent.kind : WriteEvent → EventKind
  | WriteEvent.insertToken _ => EventKind.tokenInsert
  | WriteEvent.insertKey _ => EventKind.keyInsert
  | WriteEvent.updateTokenStatus _ _ => EventKind.statusFlip
  | WriteEvent.updatePending _ _ => EventKind.pendingUpdate

/- === User persistence (bot.py 69-85, 218-229) === -/

def save_user (st : DB) (uid : Int) (uname : Option String)
    (first : String) (last : Option String) (now : Nat) : DB :=
  let data : UserRec := ⟨uid, uname, first, last, now⟩
  if st.users.any (fun u => decide (u.user_id = uid)) then
    { st with users := st.users.map (fun u => if u.user_id = uid then data else u) }
  else
    { st with users := st.users ++ [data] }

/-- The /start handler: saves the user, then re-queries the users table and
notifies admins only when that query comes back empty. The Bool result is
the condition of the notify_admins_new_user branch. -/
def start (st : DB) (uid : Int) (uname : Option String)
    (first : String) (last : Option String) (now : Nat) : DB × Bool :=
  let st1 := save_user st uid uname first last now
  let existing := st1.users.filter (fun u => decide (u.user_id = uid))
  (st1, existing.isEmpty)

/- === Token/key ledger (bot.py 108-155) === -/

def save_token (st : DB) (uid : Int) (uname : String) (package_id : Nat)
    (txn_id : String) (amount : Rat) (tid : String) (now : Nat) : DB :=
  { st with tokens :=
      st.tokens ++ [⟨tid, uid, uname, package_id, txn_id, amount, TokenStatus.active, now⟩] }

def setUsed (token_id : String) (t : Token) : Token :=
  if t.token_id = token_id then { t with status := TokenStatus.used } else t

/-- The token row generate_key looks up: first row matching the presented
token id, the claiming user id, and status active. -/
def redeemLookup (st : DB) (token_id : String) (user_id : Int) : Option Token :=
  st.tokens.find? (fun t =>
    decide (t.token_id = token_id ∧ t.user_id = user_id ∧ t.status = TokenStatus.active))

structure GKRes where
  db : DB
  log : List WriteEvent
  res : Option String
deriving DecidableEq, Repr

/-- generate_key: looks up the presented token (filtered by claiming user id
and active status), then looks up its package; if both exist it inserts the
key record and only afterwards flips the token status to used. -/
def generate_key (st : DB) (token_id : String) (user_id : Int)
    (keyVal : String) (now : Nat) : GKRes :=
  match redeemLookup st token_id user_id with
  | none => ⟨st, [], none⟩
  | some token_data =>
    match get_package_by_id st token_data.package_id with
    | none => ⟨st, [], none⟩
    | some package =>
      let key_data : KeyRec :=
        ⟨keyVal, user_id, token_data.package_id, token_id, package.validity, now, "active"⟩
      let db1 := { st with keys := st.keys ++ [key_data] }
      let db2 := { db1 with tokens := db1.tokens.map (setUsed token_id) }
      ⟨db2, [WriteEvent.insertKey key_data,
             WriteEvent.updateTokenStatus token_id TokenStatus.used], some keyVal⟩

/- === Buyer proof submission (bot.py 440-563) === -/

inductive Reply where
  | keyIssued (key : String)
  | verifyFailedSuggestScreenshot
deriving DecidableEq, Repr

structure TxnRes where
  db : DB
  log : List WriteEvent
  reply : Reply
deriving DecidableEq, Repr

/-- handle_transaction_id_submission: on verdict SUCCESS it inserts a fresh
active token, inserts the key record, then flips the new token to used; on
any other verdict it writes nothing and points the buyer at the screenshot
path. -/
def handle_transaction_id_submission (st : DB) (uid : Int) (uname : String)
    (package_id : Nat) (package : Package) (resp : ApiResp)
    (txn_id tidFresh keyVal : String) (now : Nat) : TxnRes :=
  let result := verify_transaction st.settings resp txn_id package.amount
  if result.status = VStatus.SUCCESS then
    let tok : Token :=
      ⟨tidFresh, uid, uname, package_id, txn_id, package.amount, TokenStatus.active, now⟩
    let key_data : KeyRec :=
      ⟨keyVal, uid, package_id, tidFresh, package.validity, now, "active"⟩
    let db1 := save_token st uid uname package_id txn_id package.amount tidFresh now
    let db2 := { db1 with keys := db1.keys ++ [key_data] }
    let db3 := { db2 with tokens := db2.tokens.map (setUsed tidFresh) }
    ⟨db3, [WriteEvent.insertToken tok, WriteEvent.insertKey key_data,
           WriteEvent.updateTokenStatus tidFresh TokenStatus.used],
     Reply.keyIssued keyVal⟩
  else
    ⟨st, [], Reply.verifyFailedSuggestScreenshot⟩

def handle_screenshot_submission (st : DB) (uid : Int) (uname : String)
    (package_id : Nat) (fileId : String) (now : Nat) : DB :=
  { st with
    pending := st.pending ++
      [⟨st.nextId + 1, uid, uname, package_id, fileId, PendingStatus.pending, now, none, none⟩],
    nextId := st.nextId + 1 }

/- === Review queue resolution (admin_commands.py 278-379) === -/

def findPending (st : DB) (rowId : Nat) : Option PendingTx :=
  st.pending.find? (fun p => decide (p.id = rowId))

inductive ApproveOutcome where
  | delivered (key : String)
  | missingReview
  | missingPackage
deriving DecidableEq, Repr

structure ApproveRes where
  db : DB
  log : List WriteEvent
  outcome : ApproveOutcome
deriving DecidableEq, Repr

/-- admin_approve_screenshot: fetches the review row by id with no status
filter, mints a fresh token, inserts the key, flips the token to used, and
stamps the row approved with reviewer and timestamp. A missing row or
missing package raises before any write (IndexError on data[0]). -/
def admin_approve_screenshot (st : DB) (rowId : Nat) (adminId : Int)
    (tidFresh keyVal : String) (now : Nat) : ApproveRes :=
  match findPending st rowId with
  | none => ⟨st, [], ApproveOutcome.missingReview⟩
  | some transaction =>
    match get_package_by_id st transaction.package_id with
    | none => ⟨st, [], ApproveOutcome.missingPackage⟩
    | some package =>
      let tok : Token :=
        ⟨tidFresh, transaction.user_id, transaction.username, transaction.package_id,
          "SS_" ++ toString rowId, package.amount, TokenStatus.active, now⟩
      let key_data : KeyRec :=
        ⟨keyVal, transaction.user_id, transaction.package_id, tidFresh,
          package.validity, now, "active"⟩
      let db1 := { st with tokens := st.tokens ++ [tok] }
      let db2 := { db1 with keys := db1.keys ++ [key_data] }
      let db3 := { db2 with tokens := db2.tokens.map (setUsed tidFresh) }
      let db4 := { db3 with pending := db3.pending.map (fun p =>
        if p.id = rowId then
          { p with status := PendingStatus.approved,
                   reviewed_at := some now, reviewed_by := some adminId }
        else p) }
      ⟨db4, [WriteEvent.insertToken tok, WriteEvent.insertKey key_data,
             WriteEvent.updateTokenStatus tidFresh TokenStatus.used,
             WriteEvent.updatePending rowId PendingStatus.approved],
       ApproveOutcome.delivered keyVal⟩

inductive RejectOutcome where
  | rejectedDone
  | missingReview
deriving DecidableEq, Repr

structure RejectRes where
  db : DB
  outcome : RejectOutcome
deriving DecidableEq, Repr

/-- admin_reject_screenshot: fetches the row by id with no status filter and
stamps it rejected with reviewer and timestamp; no token or key is touched. -/
def admin_reject_screenshot (st : DB) (rowId : Nat) (adminId : Int) (now : Nat) : RejectRes :=
  match findPending st rowId with
  | none => ⟨st, RejectOutcome.missingReview⟩
  | some _ =>
    ⟨{ st with pending := st.pending.map (fun p =>
        if p.id = rowId then
          { p with status := PendingStatus.rejected,
                   reviewed_at := some now, reviewed_by := some adminId }
        else p) },
     RejectOutcome.rejectedDone⟩

/- === Admin mutations (admin_commands.py 429-846) === -/

def admin_add_package_validity (st : DB) (name desc : String)
    (amount : Rat) (validity : Int) (now : Nat) : DB :=
  { st with
    packages := st.packages ++ [⟨st.nextId + 1, name, desc, amount, validity, true, now⟩],
    nextId := st.nextId + 1 }

/-- admin_add_upi_name: first deactivates every upi_config row whose id is
not 0 (the neq filter of the source), then inserts the new row as active. -/
def admin_add_upi_name (st : DB) (upiId name : String) (now : Nat) : DB :=
  let deact := st.upis.map (fun u => if u.id ≠ 0 then { u with is_active := false } else u)
  { st with
    upis := deact ++ [⟨st.nextId + 1, upiId, name, true, now⟩],
    nextId := st.nextId + 1 }

def admin_add_admin_role (st : DB) (tgId : Int) (role : String) (now : Nat) : DB :=
  { st with admins := st.admins ++ [⟨tgId, some role, true, now⟩] }

def normalize_channel (c : String) : String :=
  if c.startsWith "-100" then c
  else if c.startsWith "@" then c
  else "@" ++ c

def admin_edit_channel_save (st : DB) (raw : String) : DB :=
  let channel := normalize_channel raw
  match st.settings with
  | [] =>
    { st with settings := st.settings ++ [⟨st.nextId + 1, some channel, none⟩],
              nextId := st.nextId + 1 }
  | s0 :: _ =>
    { st with settings := st.settings.map (fun s =>
        if s.id = s0.id then { s with force_channel := some channel } else s) }

def admin_edit_api_save (st : DB) (tokenVal : String) : DB :=
  match st.settings with
  | [] =>
    { st with settings := st.settings ++ [⟨st.nextId + 1, none, some tokenVal⟩],
              nextId := st.nextId + 1 }
  | s0 :: _ =>
    { st with settings := st.settings.map (fun s =>
        if s.id = s0.id then { s with api_token := some tokenVal } else s) }

/- === Manual token issuance (admin_commands.py 182-234) === -/

inductive ManualOutcome where
  | tokenIssued (tid : String)
  | verifyFailed
  | missingPackage
deriving DecidableEq, Repr

structure ManualRes where
  db : DB
  outcome : ManualOutcome
deriving DecidableEq, Repr

/-- admin_receive_transaction: verifies the transaction against the selected
package amount; on SUCCESS it inserts an active token with user_id 0 (the
unclaimed owner hint) and no key; otherwise nothing is written. -/
def admin_receive_transaction (st : DB) (username : String) (package_id : Nat)
    (txn_id : String) (resp : ApiResp) (tidFresh : String) (now : Nat) : ManualRes :=
  match get_package_by_id st package_id with
  | none => ⟨st, ManualOutcome.missingPackage⟩
  | some package =>
    let result := verify_transaction st.settings resp txn_id package.amount
    if result.status = VStatus.SUCCESS then
      ⟨{ st with tokens := st.tokens ++
          [⟨tidFresh, 0, username, package_id, txn_id, package.amount, TokenStatus.active, now⟩] },
       ManualOutcome.tokenIssued tidFresh⟩
    else
      ⟨st, ManualOutcome.verifyFailed⟩

/- === Role-gated entry points (admin_commands.py 429-443, 551-565, 647-661,
765-780, 813-828): each checks is_super_admin before any prompt and ends the
conversation with an unauthorized notice otherwise; none of them writes. === -/

inductive StartRes where
  | unauthorizedEnd
  | proceed (convState : Nat)
deriving DecidableEq, Repr

def admin_add_package_start (st : DB) (uid : Int) : DB × StartRes :=
  (st, if is_super_admin st.admins uid then StartRes.proceed 27 else StartRes.unauthorizedEnd)

def admin_add_upi_start (st : DB) (uid : Int) : DB × StartRes :=
  (st, if is_super_admin st.admins uid then StartRes.proceed 23 else StartRes.unauthorizedEnd)

def admin_add_admin_start (st : DB) (uid : Int) : DB × StartRes :=
  (st, if is_super_admin st.admins uid then StartRes.proceed 25 else StartRes.unauthorizedEnd)

def admin_edit_channel_start (st : DB) (uid : Int) : DB × StartRes :=
  (st, if is_super_admin st.admins uid then StartRes.proceed 31 else StartRes.unauthorizedEnd)

def admin_edit_api_start (st : DB) (uid : Int) : DB × StartRes :=
  (st, if is_super_admin st.admins uid then StartRes.proceed 32 else StartRes.unauthorizedEnd)

/- === The ledger-mutating operations as one step type === -/

inductive Op where
  | saveUser (uid : Int) (uname : Option String) (first : String)
      (last : Option String) (now : Nat)
  | redeemToken (tid : String) (uid : Int) (keyVal : String) (now : Nat)
  | autoVerify (uid : Int) (uname : String) (package_id : Nat) (resp : ApiResp)
      (txn_id tidFresh keyVal : String) (now : Nat)
  | screenshotSubmit (uid : Int) (uname : String) (package_id : Nat)
      (fileId : String) (now : Nat)
  | approveReview (rowId : Nat) (adminId : Int) (tidFresh keyVal : String) (now : Nat)
  | rejectReview (rowId : Nat) (adminId : Int) (now : Nat)
  | addPackage (name desc : String) (amount : Rat) (validity : Int) (now : Nat)
  | addUpi (upiId name : String) (now : Nat)
  | addAdmin (tgId : Int) (role : String) (now : Nat)
  | editChannel (channel : String)
  | editApi (tokenVal : String)
  | manualIssue (uname : String) (package_id : Nat) (txn_id : String)
      (resp : ApiResp) (tidFresh : String) (now : Nat)

def applyOp (st : DB) : Op → DB
  | Op.saveUser uid a b c now => save_user st uid a b c now
  | Op.redeemToken tid uid kv now => (generate_key st tid uid kv now).db
  | Op.autoVerify uid uname package_id resp txn_id tid kv now =>
    match get_package_by_id st package_id with
    | none => st
    | some pkg =>
      (handle_transaction_id_submission st uid uname package_id pkg resp txn_id tid kv now).db
  | Op.screenshotSubmit uid uname package_id fid now =>
    handle_screenshot_submission st uid uname package_id fid now
  | Op.approveReview rowId aid tid kv now => (admin_approve_screenshot st rowId aid tid kv now).db
  | Op.rejectReview rowId aid now => (admin_reject_screenshot st rowId aid now).db
  | Op.addPackage n d a v now => admin_add_package_validity st n d a v now
  | Op.addUpi u n now => admin_add_upi_name st u n now
  | Op.addAdmin t r now => admin_add_admin_role st t r now
  | Op.editChannel c => admin_edit_channel_save st c
  | Op.editApi t => admin_edit_api_save st t
  | Op.manualIssue un package_id txn_id resp tid now =>
    (admin_receive_transaction st un package_id txn_id resp tid now).db

/-- Freshness of the randomly generated token ids an operation consumes:
a fresh id collides with no stored token id and no stored key reference. -/
def FreshOp (st : DB) : Op → Prop
  | Op.autoVerify _ _ _ _ _ tid _ _ =>
    tid ∉ st.tokens.map Token.token_id ∧ tid ∉ st.keys.map KeyRec.token_id
  | Op.approveReview _ _ tid _ _ =>
    tid ∉ st.tokens.map Token.token_id ∧ tid ∉ st.keys.map KeyRec.token_id
  | Op.manualIssue _ _ _ _ tid _ =>
    tid ∉ st.tokens.map Token.token_id ∧ tid ∉ st.keys.map KeyRec.token_id
  | _ => True

instance (st : DB) (op : Op) : Decidable (FreshOp st op) := by
  unfold FreshOp; cases op <;> infer_instance

/-- The single-use ledger invariant: token ids are unique, at most one key
record references any token id, and a token referenced by a key is used. -/
def KeyInvL (tokens : List Token) (keys : List KeyRec) : Prop :=
  (tokens.map Token.token_id).Nodup ∧
  (keys.map KeyRec.token_id).Nodup ∧
  ∀ k ∈ keys, ∀ t ∈ tokens, t.token_id = k.token_id → t.status = TokenStatus.used

def KeyInv (st : DB) : Prop := KeyInvL st.tokens st.keys

instance (ts : List Token) (ks : List KeyRec) : Decidable (KeyInvL ts ks) := by
  unfold KeyInvL; infer_instance

instance (st : DB) : Decidable (KeyInv st) := by
  unfold KeyInv; infer_instance

/- === Helper lemmas about the status flip === -/

theorem tokenId_setUsed (tid : String) (t : Token) : (setUsed tid t).token_id = t.token_id := by
  unfold setUsed; split <;> rfl

theorem map_tokenId_setUsed (tid : String) (ts : List Token) :
    (ts.map (setUsed tid)).map Token.token_id = ts.map Token.token_id := by
  induction ts with
  | nil => rfl
  | cons t ts ih => simp [List.map_cons, ih, tokenId_setUsed]

theorem setUsed_of_ne {tid : String} {t : Token} (h : t.token_id ≠ tid) :
    setUsed tid t = t := by
  unfold setUsed; simp [h]

theorem status_setUsed_of_eq {tid : String} {t : Token} (h : t.token_id = tid) :
    (setUsed tid t).status = TokenStatus.used := by
  unfold setUsed; simp [h]

/- === Invariant preservation lemmas, at the level of the two lists === -/

theorem keyinv_redeem {ts : List Token} {ks : List KeyRec} {t0 : Token} {tid : String}
    {k : KeyRec} (hinv : KeyInvL ts ks) (ht0 : t0 ∈ ts) (hid : t0.token_id = tid)
    (hact : t0.status = TokenStatus.active) (hk : k.token_id = tid) :
    KeyInvL (ts.map (setUsed tid)) (ks ++ [k]) := by
  obtain ⟨nd_t, nd_k, huse⟩ := hinv
  have hnotin : tid ∉ ks.map KeyRec.token_id := by
    intro hmem
    obtain ⟨k0, hk0, hk0id⟩ := List.mem_map.mp hmem
    have hu := huse k0 hk0 t0 ht0 (by rw [hid, hk0id])
    rw [hact] at hu
    exact TokenStatus.noConfusion hu
  refine ⟨?_, ?_, ?_⟩
  · rw [map_tokenId_setUsed]; exact nd_t
  · rw [List.map_append, List.nodup_append]
    refine ⟨nd_k, by simp, ?_⟩
    intro a ha hb
    simp only [List.map_cons, List.map_nil, List.mem_singleton] at hb
    rw [hb, hk] at ha
    exact hnotin ha
  · intro k0 hk0 t ht h_eq
    obtain ⟨t1, ht1, rfl⟩ := List.mem_map.mp ht
    rw [tokenId_setUsed] at h_eq
    rcases List.mem_append.mp hk0 with hk0l | hk0r
    · by_cases hc : t1.token_id = tid
      · exact status_setUsed_of_eq hc
      · rw [setUsed_of_ne hc]
        exact huse k0 hk0l t1 ht1 h_eq
    · have hk0k : k0 = k := by simpa using hk0r
      subst hk0k
      exact status_setUsed_of_eq (by rw [h_eq, hk])

theorem keyinv_insert_fresh {ts : List Token} {ks : List KeyRec} {tok : Token}
    (hinv : KeyInvL ts ks) (hf1 : tok.token_id ∉ ts.map Token.token_id)
    (hf2 : tok.token_id ∉ ks.map KeyRec.token_id) :
    KeyInvL (ts ++ [tok]) ks := by
  obtain ⟨nd_t, nd_k, huse⟩ := hinv
  refine ⟨?_, nd_k, ?_⟩
  · rw [List.map_append, List.nodup_append]
    refine ⟨nd_t, by simp, ?_⟩
    intro a ha hb
    simp only [List.map_cons, List.map_nil, List.mem_singleton] at hb
    rw [hb] at ha
    exact hf1 ha
  · intro k0 hk0 t ht h_eq
    rcases List.mem_append.mp ht with h | h
    · exact huse k0 hk0 t h h_eq
    · have htok : t = tok := by simpa using h
      subst htok
      exact absurd (h_eq ▸ List.mem_map_of_mem KeyRec.token_id hk0) hf2

theorem keyinv_mint {ts : List Token} {ks : List KeyRec} {tok : Token} {tid : String}
    {k : KeyRec} (hinv : KeyInvL ts ks) (htok : tok.token_id = tid)
    (hact : tok.status = TokenStatus.active) (hk : k.token_id = tid)
    (hf1 : tid ∉ ts.map Token.token_id) (hf2 : tid ∉ ks.map KeyRec.token_id) :
    KeyInvL ((ts ++ [tok]).map (setUsed tid)) (ks ++ [k]) := by
  have hstep : KeyInvL (ts ++ [tok]) ks :=
    keyinv_insert_fresh hinv (htok ▸ hf1) (htok ▸ hf2)
  exact keyinv_redeem hstep (by simp) htok hact hk


/-- C1: for every token T, once a redemption of T has succeeded (its status
is used), every subsequent redemption attempt on T fails with the
already-used rejection (generate_key returns null, surfaced as the invalid
or already-used message) and writes nothing; and the single-use ledger
invariant — at most one key record per token id, keyed tokens are used — is
preserved by every ledger-mutating operation, given that freshly generated
token ids are collision-free. -/
theorem c1_token_single_use (st : DB) (hinv : KeyInv st) :
    (∀ tid uid keyVal now,
        (∀ t ∈ st.tokens, t.token_id = tid → t.status = TokenStatus.used) →
        (generate_key st tid uid keyVal now).res = none ∧
        (generate_key st tid uid keyVal now).db = st) ∧
    (∀ op, FreshOp st op → KeyInv (applyOp st op)) := by
  constructor
  · intro tid uid keyVal now hused
    have hnone : redeemLookup st tid uid = none := by
      unfold redeemLookup
      rw [List.find?_eq_none]
      intro t ht
      simp only [decide_eq_true_eq, not_and]
      intro h1 _ h3
      have hu := hused t ht h1
      rw [hu] at h3
      exact TokenStatus.noConfusion h3
    constructor <;> simp [generate_key, hnone]
  · intro op hfresh
    cases op with
    | saveUser uid a b c now =>
      show KeyInv (save_user st uid a b c now)
      unfold save_user KeyInv
      split <;> exact hinv
    | redeemToken tid uid kv now =>
      show KeyInv (generate_key st tid uid kv now).db
      cases hfind : redeemLookup st tid uid with
      | none => simpa [generate_key, hfind] using hinv
      | some t0 =>
        cases hpkg : get_package_by_id st t0.package_id with
        | none => simpa [generate_key, hfind, hpkg] using hinv
        | some pkg =>
          have ht0 : t0 ∈ st.tokens := List.mem_of_find?_eq_some hfind
          have hpred := List.find?_some hfind
          rw [decide_eq_true_eq] at hpred
          obtain ⟨hid, _, hact⟩ := hpred
          have hres : KeyInvL (st.tokens.map (setUsed tid)) (st.keys ++
              [⟨kv, uid, t0.package_id, tid, pkg.validity, now, "active"⟩]) :=
            keyinv_redeem hinv ht0 hid hact rfl
          simpa [generate_key, hfind, hpkg, KeyInv] using hres
    | autoVerify uid uname package_id resp txn_id tid kv now =>
      unfold FreshOp at hfresh
      obtain ⟨hf1, hf2⟩ := hfresh
      simp only [applyOp]
      cases hpkg : get_package_by_id st package_id with
      | none => exact hinv
      | some pkg =>
        by_cases hv :
            (verify_transaction st.settings resp txn_id pkg.amount).status = VStatus.SUCCESS
        · have hres : KeyInvL ((st.tokens ++
              [(⟨tid, uid, uname, package_id, txn_id, pkg.amount, TokenStatus.active, now⟩ :
                Token)]).map (setUsed tid))
              (st.keys ++ [(⟨kv, uid, package_id, tid, pkg.validity, now, "active"⟩ : KeyRec)]) :=
            keyinv_mint hinv rfl rfl rfl hf1 hf2
          simpa [handle_transaction_id_submission, save_token, hv, KeyInv] using hres
        · simpa [handle_transaction_id_submission, hv] using hinv
    | screenshotSubmit uid uname package_id fid now =>
      exact hinv
    | approveReview rowId aid tid kv now =>
      unfold FreshOp at hfresh
      obtain ⟨hf1, hf2⟩ := hfresh
      show KeyInv (admin_approve_screenshot st rowId aid tid kv now).db
      cases hfind : findPending st rowId with
      | none => simpa [admin_approve_screenshot, hfind] using hinv
      | some tr =>
        cases hpkg : get_package_by_id st tr.package_id with
        | none => simpa [admin_approve_screenshot, hfind, hpkg] using hinv
        | some pkg =>
          have hres : KeyInvL ((st.tokens ++
              [(⟨tid, tr.user_id, tr.username, tr.package_id, "SS_" ++ toString rowId,
                pkg.amount, TokenStatus.active, now⟩ : Token)]).map (setUsed tid))
              (st.keys ++
                [(⟨kv, tr.user_id, tr.package_id, tid, pkg.validity, now, "active"⟩ : KeyRec)]) :=
            keyinv_mint hinv rfl rfl rfl hf1 hf2
          simpa [admin_approve_screenshot, hfind, hpkg, KeyInv] using hres
    | rejectReview rowId aid now =>
      show KeyInv (admin_reject_screenshot st rowId aid now).db
      unfold admin_reject_screenshot KeyInv
      split <;> exact hinv
    | addPackage n d a v now => exact hinv
    | addUpi u n now => exact hinv
    | addAdmin t r now => exact hinv
    | editChannel c =>
      show KeyInv (admin_edit_channel_save st c)
      unfold admin_edit_channel_save KeyInv
      split <;> exact hinv
    | editApi t =>
      show KeyInv (admin_edit_api_save st t)
      unfold admin_edit_api_save KeyInv
      split <;> exact hinv
    | manualIssue un package_id txn_id resp tid now =>
      unfold FreshOp at hfresh
      obtain ⟨hf1, hf2⟩ := hfresh
      simp only [applyOp]
      cases hpkg : get_package_by_id st package_id with
      | none => simpa [admin_receive_transaction, hpkg] using hinv
      | some pkg =>
        by_cases hv :
            (verify_transaction st.settings resp txn_id pkg.amount).status = VStatus.SUCCESS
        · have hres : KeyInvL (st.tokens ++
              [⟨tid, 0, un, package_id, txn_id, pkg.amount, TokenStatus.active, now⟩])
              st.keys :=
            keyinv_insert_fresh hinv hf1 hf2
          simpa [admin_receive_transaction, hpkg, hv, KeyInv] using hres
        · simpa [admin_receive_transaction, hpkg, hv] using hinv

/- === Concrete fixtures used by witnesses and counterexamples === -/

def pkgW : Package := ⟨1, "Monthly", "plan", 100, 30, true, 0⟩

def c1W : DB :=
  ⟨[], [pkgW], [], [⟨"T1", 7, "alice", 1, "TXN1", 100, TokenStatus.used, 1⟩],
   [⟨"K1", 7, 1, "T1", 30, 1, "active"⟩], [], [], [], 5⟩

/-- C1 witness: a store holding one used token and its single key satisfies
the invariant; a renewed redemption attempt on that token returns null and
leaves the store untouched, and a further operation keeps the invariant. -/
theorem c1_token_single_use_witness :
    KeyInv c1W ∧
    (generate_key c1W "T1" 7 "K2" 9).res = none ∧
    (generate_key c1W "T1" 7 "K2" 9).db = c1W ∧
    KeyInv (applyOp c1W (Op.addUpi "u" "n" 9)) :=
  ⟨by decide,
   ((c1_token_single_use c1W (by decide)).1 "T1" 7 "K2" 9 (by decide)).1,
   ((c1_token_single_use c1W (by decide)).1 "T1" 7 "K2" 9 (by decide)).2,
   (c1_token_single_use c1W (by decide)).2 (Op.addUpi "u" "n" 9) trivial⟩

/- === C10: the new-user notification branch is dead === -/

theorem filter_not_isEmpty_of_mem {α : Type} {l : List α} {p : α → Bool} {x : α}
    (hx : x ∈ l) (hpx : p x = true) : (l.filter p).isEmpty = false := by
  induction l with
  | nil => cases hx
  | cons a l ih =>
    by_cases hpa : p a = true
    · simp [List.filter_cons, hpa]
    · have hx' : x ∈ l := by
        rcases List.mem_cons.mp hx with h | h
        · subst h; exact absurd hpx hpa
        · exact h
      simpa [List.filter_cons, hpa] using ih hx'

/-- C10: the start handler saves the user before re-querying for existence,
so the existence query always finds a row and the new-user admin
notification branch never fires. -/
theorem c10_new_user_notification_unreachable (st : DB) (uid : Int)
    (uname : Option String) (first : String) (last : Option String) (now : Nat) :
    (start st uid uname first last now).2 = false := by
  show ((save_user st uid uname first last now).users.filter
      (fun u => decide (u.user_id = uid))).isEmpty = false
  have hmem : ∃ u ∈ (save_user st uid uname first last now).users,
      decide (u.user_id = uid) = true := by
    unfold save_user
    by_cases h : st.users.any (fun u => decide (u.user_id = uid)) = true
    · obtain ⟨u0, hu0, hpu⟩ := List.any_eq_true.mp h
      refine ⟨⟨uid, uname, first, last, now⟩, ?_, by simp⟩
      simp only [h, if_true]
      exact List.mem_map.mpr ⟨u0, hu0, by simp [of_decide_eq_true hpu]⟩
    · refine ⟨⟨uid, uname, first, last, now⟩, ?_, by simp⟩
      simp [h]
  obtain ⟨u, hu, hpu⟩ := hmem
  exact filter_not_isEmpty_of_mem hu hpu

/- === C5: the amount-match contract of verify_transaction === -/

/-- C5: verification returns SUCCESS exactly when an external verdict was
actually obtained (API credential configured, call and parse did not raise)
with status SUCCESS and its coerced amount equal to the expected amount;
every other combination — mismatch, FAILED status, transport failure or
timeout, missing credential — is non-success. -/
theorem c5_amount_match (settings : List BotSettings) (resp : ApiResp)
    (txn_id : String) (expected : Rat) :
    (verify_transaction settings resp txn_id expected).status = VStatus.SUCCESS ↔
      api_token_ok settings = true ∧
        ∃ stt amt payer app, resp = ApiResp.ok stt amt payer app ∧
          stt = some "SUCCESS" ∧ amt.getD 0 = expected := by
  unfold verify_transaction api_token_ok
  cases settings with
  | nil => simp
  | cons s rest =>
    cases hApi : s.api_token with
    | none => simp [hApi]
    | some t =>
      by_cases ht : t = ""
      · simp [hApi, ht]
      · cases resp with
        | failure => simp [hApi, ht]
        | ok stt amt payer app =>
          by_cases hc : stt = some "SUCCESS" ∧ amt.getD 0 = expected
          · obtain ⟨h1, h2⟩ := hc
            simp [hApi, ht, h1, h2]
            exact ⟨some "SUCCESS", amt, ⟨rfl, rfl⟩, rfl, h2⟩
          · simp [hApi, ht, hc]
            tauto

/- === C8: failed or errored auto-verification writes nothing === -/

/-- C8: on a buyer text-proof submission whose verification verdict is
FAILED or ERROR, the store is left untouched — in particular no token and
no key record is created — and the buyer gets the failure reply that
suggests the screenshot path. -/
theorem c8_failed_verdict_no_mint (st : DB) (uid : Int) (uname : String)
    (package_id : Nat) (package : Package) (resp : ApiResp)
    (txn_id tidFresh keyVal : String) (now : Nat)
    (h : (verify_transaction st.settings resp txn_id package.amount).status = VStatus.FAILED ∨
         (verify_transaction st.settings resp txn_id package.amount).status = VStatus.ERROR) :
    (handle_transaction_id_submission st uid uname package_id package resp txn_id
        tidFresh keyVal now).db = st ∧
    (handle_transaction_id_submission st uid uname package_id package resp txn_id
        tidFresh keyVal now).reply = Reply.verifyFailedSuggestScreenshot := by
  have hne : ¬ (verify_transaction st.settings resp txn_id package.amount).status =
      VStatus.SUCCESS := by
    rcases h with h | h <;> simp [h]
  constructor <;> simp [handle_transaction_id_submission, hne]

def c8W : DB := ⟨[], [pkgW], [], [], [], [], [], [], 0⟩

/-- C8 witness: with no settings row the verdict is ERROR (transport never
succeeds without a credential) and the submission leaves the empty store
unchanged with the screenshot-suggesting reply. -/
theorem c8_failed_verdict_no_mint_witness :
    ((verify_transaction c8W.settings ApiResp.failure "TXN9" pkgW.amount).status =
        VStatus.FAILED ∨
      (verify_transaction c8W.settings ApiResp.failure "TXN9" pkgW.amount).status =
        VStatus.ERROR) ∧
    (handle_transaction_id_submission c8W 7 "alice" 1 pkgW ApiResp.failure "TXN9"
        "T9" "K9" 2).db = c8W ∧
    (handle_transaction_id_submission c8W 7 "alice" 1 pkgW ApiResp.failure "TXN9"
        "T9" "K9" 2).reply = Reply.verifyFailedSuggestScreenshot :=
  ⟨by decide,
   (c8_failed_verdict_no_mint c8W 7 "alice" 1 pkgW ApiResp.failure "TXN9" "T9" "K9" 2
      (by decide)).1,
   (c8_failed_verdict_no_mint c8W 7 "alice" 1 pkgW ApiResp.failure "TXN9" "T9" "K9" 2
      (by decide)).2⟩

/- === C6: role gating of super-admin-only entry points === -/

/-- C6: a limited-role admin invoking the addPackage, addUpi, addAdmin or
editSettings (channel or API token) entry points always gets the
unauthorized notice and the conversation ends; the handlers write nothing
(the returned store is the input store). -/
theorem c6_role_gating (st : DB) (uid : Int)
    (h : get_admin_role st.admins uid = some "limited") :
    admin_add_package_start st uid = (st, StartRes.unauthorizedEnd) ∧
    admin_add_upi_start st uid = (st, StartRes.unauthorizedEnd) ∧
    admin_add_admin_start st uid = (st, StartRes.unauthorizedEnd) ∧
    admin_edit_channel_start st uid = (st, StartRes.unauthorizedEnd) ∧
    admin_edit_api_start st uid = (st, StartRes.unauthorizedEnd) := by
  have hs : is_super_admin st.admins uid = false := by
    unfold is_super_admin
    simp [h]
  refine ⟨?_, ?_, ?_, ?_, ?_⟩ <;>
    simp [admin_add_package_start, admin_add_upi_start, admin_add_admin_start,
      admin_edit_channel_start, admin_edit_api_start, hs]

def c6W : DB := ⟨[], [], [], [], [], [], [⟨7, some "limited", true, 0⟩], [], 1⟩

/-- C6 witness: a roster holding one active limited admin. -/
theorem c6_role_gating_witness :
    get_admin_role c6W.admins 7 = some "limited" ∧
    admin_add_package_start c6W 7 = (c6W, StartRes.unauthorizedEnd) ∧
    admin_add_upi_start c6W 7 = (c6W, StartRes.unauthorizedEnd) :=
  ⟨by decide, (c6_role_gating c6W 7 (by decide)).1, (c6_role_gating c6W 7 (by decide)).2.1⟩

/- === C7: at most one active UpiRoute after addUpi === -/

/-- C7: after a completed addUpi, the newly inserted route is the only
active one: the source deactivates every row with id distinct from 0 and
then inserts the new row active, and serial row ids are never 0. -/
theorem c7_single_active_upi (st : DB) (upiId name : String) (now : Nat)
    (h : ∀ u ∈ st.upis, u.id ≠ 0) :
    (admin_add_upi_name st upiId name now).upis.filter (fun u => u.is_active) =
      [⟨st.nextId + 1, upiId, name, true, now⟩] := by
  unfold admin_add_upi_name
  simp only [List.filter_append]
  have hnil : (st.upis.map
      (fun u => if u.id ≠ 0 then { u with is_active := false } else u)).filter
        (fun u => u.is_active) = [] := by
    rw [List.filter_eq_nil_iff]
    intro x hx
    obtain ⟨u, hu, rfl⟩ := List.mem_map.mp hx
    simp [h u hu]
  rw [hnil]
  simp

def c7W : DB := ⟨[], [], [⟨1, "old@upi", "Old", true, 0⟩], [], [], [], [], [], 1⟩

/-- C7 witness: adding a route while one is active leaves exactly the new
route active. -/
theorem c7_single_active_upi_witness :
    (∀ u ∈ c7W.upis, u.id ≠ 0) ∧
    (admin_add_upi_name c7W "new@upi" "New" 4).upis.filter (fun u => u.is_active) =
      [⟨2, "new@upi", "New", true, 4⟩] :=
  ⟨by decide, c7_single_active_upi c7W "new@upi" "New" 4 (by decide)⟩

/- === C2: review resolution has no pending-only guard === -/

def c2Row : PendingTx := ⟨1, 7, "alice", 1, "file1", PendingStatus.approved, 0, some 1, some 50⟩

def c2W : DB := ⟨[], [pkgW], [], [], [], [c2Row], [], [], 2⟩

/-- C2 counterexample: on a review that is already approved, a further
approve call is not rejected as already resolved — it mints a fresh token
and a fresh key and reports a delivered key, mutating the ledger. -/
theorem c2_counterexample :
    c2W.pending.map PendingTx.status = [PendingStatus.approved] ∧
    (admin_approve_screenshot c2W 1 99 "T2" "K2" 5).outcome = ApproveOutcome.delivered "K2" ∧
    (admin_approve_screenshot c2W 1 99 "T2" "K2" 5).db.keys.length = c2W.keys.length + 1 ∧
    (admin_approve_screenshot c2W 1 99 "T2" "K2" 5).db.tokens.length =
      c2W.tokens.length + 1 := by
  decide

/-- C2 amended: the approve and reject handlers look the review row up by id
only, with no check of its status: whenever the row and its package exist —
whatever the current status, pending or already resolved — approve mints a
fresh token and key, re-stamps the row approved with reviewer and timestamp,
and reject likewise re-stamps it rejected; no already-resolved rejection
exists in the code. -/
theorem c2_amended_no_resolution_guard (st : DB) (rowId : Nat) (adminId : Int)
    (tidFresh keyVal : String) (now : Nat) (tr : PendingTx) (pkg : Package)
    (hfind : findPending st rowId = some tr)
    (hpkg : get_package_by_id st tr.package_id = some pkg) :
    (admin_approve_screenshot st rowId adminId tidFresh keyVal now).outcome =
      ApproveOutcome.delivered keyVal ∧
    (admin_approve_screenshot st rowId adminId tidFresh keyVal now).db.keys =
      st.keys ++ [⟨keyVal, tr.user_id, tr.package_id, tidFresh, pkg.validity, now, "active"⟩] ∧
    (∀ p ∈ (admin_approve_screenshot st rowId adminId tidFresh keyVal now).db.pending,
        p.id = rowId → p.status = PendingStatus.approved ∧
          p.reviewed_by = some adminId ∧ p.reviewed_at = some now) ∧
    (admin_reject_screenshot st rowId adminId now).outcome = RejectOutcome.rejectedDone ∧
    (∀ p ∈ (admin_reject_screenshot st rowId adminId now).db.pending,
        p.id = rowId → p.status = PendingStatus.rejected ∧
          p.reviewed_by = some adminId ∧ p.reviewed_at = some now) := by
  refine ⟨?_, ?_, ?_, ?_, ?_⟩
  · simp [admin_approve_screenshot, hfind, hpkg]
  · simp [admin_approve_screenshot, hfind, hpkg]
  · intro p hp hid
    simp only [admin_approve_screenshot, hfind, hpkg] at hp
    obtain ⟨p0, _, rfl⟩ := List.mem_map.mp hp
    by_cases hc : p0.id = rowId
    · simp [hc]
    · simp only [if_neg hc] at hid ⊢
      exact absurd hid hc
  · simp [admin_reject_screenshot, hfind]
  · intro p hp hid
    simp only [admin_reject_screenshot, hfind] at hp
    obtain ⟨p0, _, rfl⟩ := List.mem_map.mp hp
    by_cases hc : p0.id = rowId
    · simp [hc]
    · simp only [if_neg hc] at hid ⊢
      exact absurd hid hc

/-- C2 witness: the amended behavior evaluated on the already-approved
review of the counterexample store. -/
theorem c2_amended_no_resolution_guard_witness :
    findPending c2W 1 = some c2Row ∧
    get_package_by_id c2W c2Row.package_id = some pkgW ∧
    (admin_approve_screenshot c2W 1 99 "T2" "K2" 5).db.keys =
      c2W.keys ++ [⟨"K2", 7, 1, "T2", 30, 5, "active"⟩] :=
  ⟨by decide, by decide,
   (c2_amended_no_resolution_guard c2W 1 99 "T2" "K2" 5 c2Row pkgW
      (by decide) (by decide)).2.1⟩

/- === C3: unclaimed (owner 0) tokens cannot actually be redeemed === -/

def c3Base : DB := ⟨[], [pkgW], [], [], [], [], [], [⟨1, none, some "apitok"⟩], 1⟩

/-- C3: the failing scenario end to end. The admin manual-issuance path
verifies the payment and stores an active token with user_id 0, telling the
admin to share the token id with the user; but generate_key filters the
token row by equality with the claiming user id, so a real (nonzero)
claimant presenting the correct token id is rejected with the
invalid-or-used reply and no key — the owner-0 token is unredeemable. -/
theorem c3_unclaimed_token_unredeemable :
    (admin_receive_transaction c3Base "bob" 1 "TXNM"
        (ApiResp.ok (some "SUCCESS") (some 100) none none) "TOK1" 0).outcome =
      ManualOutcome.tokenIssued "TOK1" ∧
    (admin_receive_transaction c3Base "bob" 1 "TXNM"
        (ApiResp.ok (some "SUCCESS") (some 100) none none) "TOK1" 0).db.tokens.map
        (fun t => (t.token_id, t.user_id, t.status)) = [("TOK1", 0, TokenStatus.active)] ∧
    (generate_key (admin_receive_transaction c3Base "bob" 1 "TXNM"
        (ApiResp.ok (some "SUCCESS") (some 100) none none) "TOK1" 0).db "TOK1" 7 "K" 2).res =
      none ∧
    (generate_key (admin_receive_transaction c3Base "bob" 1 "TXNM"
        (ApiResp.ok (some "SUCCESS") (some 100) none none) "TOK1" 0).db "TOK1" 7 "K" 2).db =
      (admin_receive_transaction c3Base "bob" 1 "TXNM"
        (ApiResp.ok (some "SUCCESS") (some 100) none none) "TOK1" 0).db := by
  decide

/- === C4: order of the two redemption writes === -/

def c4W : DB :=
  ⟨[], [pkgW], [], [⟨"T1", 7, "alice", 1, "TXN1", 100, TokenStatus.active, 0⟩],
   [], [], [], [], 2⟩

/-- C4 counterexample: a successful user redemption performs the key insert
first and the status flip second, not the claimed flip-then-insert order. -/
theorem c4_counterexample :
    (generate_key c4W "T1" 7 "K" 9).res = some "K" ∧
    (generate_key c4W "T1" 7 "K" 9).log.map WriteEvent.kind =
      [EventKind.keyInsert, EventKind.statusFlip] ∧
    (generate_key c4W "T1" 7 "K" 9).log.map WriteEvent.kind ≠
      [EventKind.statusFlip, EventKind.keyInsert] := by
  decide

/-- C4 amended: every successful redemption — user token redemption,
auto-verification success, and admin screenshot approval — performs its two
redemption ledger writes in the order: first insert the key record, then
flip the token status from active to used (the two paths that create the
token insert it before both writes, and approval afterwards re-stamps the
review row). -/
theorem c4_amended_insert_key_then_flip :
    (∀ st tid uid kv now, (generate_key st tid uid kv now).res.isSome = true →
        (generate_key st tid uid kv now).log.map WriteEvent.kind =
          [EventKind.keyInsert, EventKind.statusFlip]) ∧
    (∀ st uid uname package_id pkg resp txn_id tid kv now,
        (verify_transaction st.settings resp txn_id pkg.amount).status = VStatus.SUCCESS →
        (handle_transaction_id_submission st uid uname package_id pkg resp txn_id tid
            kv now).log.map WriteEvent.kind =
          [EventKind.tokenInsert, EventKind.keyInsert, EventKind.statusFlip]) ∧
    (∀ st rowId adminId tid kv now,
        (admin_approve_screenshot st rowId adminId tid kv now).outcome =
          ApproveOutcome.delivered kv →
        (admin_approve_screenshot st rowId adminId tid kv now).log.map WriteEvent.kind =
          [EventKind.tokenInsert, EventKind.keyInsert, EventKind.statusFlip,
            EventKind.pendingUpdate]) := by
  refine ⟨?_, ?_, ?_⟩
  · intro st tid uid kv now hsome
    cases hfind : redeemLookup st tid uid with
    | none => simp [generate_key, hfind] at hsome
    | some t0 =>
      cases hpkg : get_package_by_id st t0.package_id with
      | none => simp [generate_key, hfind, hpkg] at hsome
      | some pkg => simp [generate_key, hfind, hpkg, WriteEvent.kind]
  · intro st uid uname package_id pkg resp txn_id tid kv now hv
    simp [handle_transaction_id_submission, hv, WriteEvent.kind]
  · intro st rowId adminId tid kv now hout
    cases hfind : findPending st rowId with
    | none => simp [admin_approve_screenshot, hfind] at hout
    | some tr =>
      cases hpkg : get_package_by_id st tr.package_id with
      | none => simp [admin_approve_screenshot, hfind, hpkg] at hout
      | some pkg => simp [admin_approve_screenshot, hfind, hpkg, WriteEvent.kind]

/-- C4 witness: the amended order evaluated on a concrete successful user
redemption. -/
theorem c4_amended_insert_key_then_flip_witness :
    (generate_key c4W "T1" 7 "K" 9).res.isSome = true ∧
    (generate_key c4W "T1" 7 "K" 9).log.map WriteEvent.kind =
      [EventKind.keyInsert, EventKind.statusFlip] :=
  ⟨by decide, c4_amended_insert_key_then_flip.1 c4W "T1" 7 "K" 9 (by decide)⟩

/- === C9: key validity is a snapshot of the package at redemption === -/

/-- C9: on every key-minting path — user token redemption, auto-verification
success, and admin screenshot approval — the inserted key record carries
validity_days copied from the package row as read at that moment; and key
records are append-only — no ledger operation (in particular no later
package mutation) ever rewrites a stored key, so an issued key keeps its
validity_days. -/
theorem c9_validity_snapshot :
    (∀ st tid uid kv now t0 pkg,
        redeemLookup st tid uid = some t0 →
        get_package_by_id st t0.package_id = some pkg →
        (generate_key st tid uid kv now).db.keys =
          st.keys ++ [⟨kv, uid, t0.package_id, tid, pkg.validity, now, "active"⟩]) ∧
    (∀ st uid uname package_id pkg resp txn_id tid kv now,
        (verify_transaction st.settings resp txn_id pkg.amount).status = VStatus.SUCCESS →
        (handle_transaction_id_submission st uid uname package_id pkg resp txn_id tid
            kv now).db.keys =
          st.keys ++ [⟨kv, uid, package_id, tid, pkg.validity, now, "active"⟩]) ∧
    (∀ st rowId adminId tid kv now tr pkg,
        findPending st rowId = some tr →
        get_package_by_id st tr.package_id = some pkg →
        (admin_approve_screenshot st rowId adminId tid kv now).db.keys =
          st.keys ++ [⟨kv, tr.user_id, tr.package_id, tid, pkg.validity, now, "active"⟩]) ∧
    (∀ st op, ∃ appended, (applyOp st op).keys = st.keys ++ appended) := by
  refine ⟨?_, ?_, ?_, ?_⟩
  · intro st tid uid kv now t0 pkg hfind hpkg
    simp [generate_key, hfind, hpkg]
  · intro st uid uname package_id pkg resp txn_id tid kv now hv
    simp [handle_transaction_id_submission, save_token, hv]
  · intro st rowId adminId tid kv now tr pkg hfind hpkg
    simp [admin_approve_screenshot, hfind, hpkg]
  · intro st op
    cases op with
    | saveUser uid a b c now =>
      refine ⟨[], ?_⟩
      show (save_user st uid a b c now).keys = st.keys ++ []
      unfold save_user
      split <;> simp
    | redeemToken tid uid kv now =>
      cases hfind : redeemLookup st tid uid with
      | none => exact ⟨[], by simp [applyOp, generate_key, hfind]⟩
      | some t0 =>
        cases hpkg : get_package_by_id st t0.package_id with
        | none => exact ⟨[], by simp [applyOp, generate_key, hfind, hpkg]⟩
        | some pkg =>
          exact ⟨[⟨kv, uid, t0.package_id, tid, pkg.validity, now, "active"⟩],
            by simp [applyOp, generate_key, hfind, hpkg]⟩
    | autoVerify uid uname package_id resp txn_id tid kv now =>
      simp only [applyOp]
      cases hpkg : get_package_by_id st package_id with
      | none => exact ⟨[], by simp⟩
      | some pkg =>
        by_cases hv :
            (verify_transaction st.settings resp txn_id pkg.amount).status = VStatus.SUCCESS
        · exact ⟨[⟨kv, uid, package_id, tid, pkg.validity, now, "active"⟩],
            by simp [handle_transaction_id_submission, save_token, hv]⟩
        · exact ⟨[], by simp [handle_transaction_id_submission, hv]⟩
    | screenshotSubmit uid uname package_id fid now =>
      exact ⟨[], by simp [applyOp, handle_screenshot_submission]⟩
    | approveReview rowId aid tid kv now =>
      cases hfind : findPending st rowId with
      | none => exact ⟨[], by simp [applyOp, admin_approve_screenshot, hfind]⟩
      | some tr =>
        cases hpkg : get_package_by_id st tr.package_id with
        | none => exact ⟨[], by simp [applyOp, admin_approve_screenshot, hfind, hpkg]⟩
        | some pkg =>
          exact ⟨[⟨kv, tr.user_id, tr.package_id, tid, pkg.validity, now, "active"⟩],
            by simp [applyOp, admin_approve_screenshot, hfind, hpkg]⟩
    | rejectReview rowId aid now =>
      refine ⟨[], ?_⟩
      show (admin_reject_screenshot st rowId aid now).db.keys = st.keys ++ []
      unfold admin_reject_screenshot
      split <;> simp
    | addPackage n d a v now => exact ⟨[], by simp [applyOp, admin_add_package_validity]⟩
    | addUpi u n now => exact ⟨[], by simp [applyOp, admin_add_upi_name]⟩
    | addAdmin t r now => exact ⟨[], by simp [applyOp, admin_add_admin_role]⟩
    | editChannel c =>
      refine ⟨[], ?_⟩
      show (admin_edit_channel_save st c).keys = st.keys ++ []
      unfold admin_edit_channel_save
      split <;> simp
    | editApi t =>
      refine ⟨[], ?_⟩
      show (admin_edit_api_save st t).keys = st.keys ++ []
      unfold admin_edit_api_save
      split <;> simp
    | manualIssue un package_id txn_id resp tid now =>
      simp only [applyOp]
      cases hpkg : get_package_by_id st package_id with
      | none => exact ⟨[], by simp [admin_receive_transaction, hpkg]⟩
      | some pkg =>
        by_cases hv :
            (verify_transaction st.settings resp txn_id pkg.amount).status = VStatus.SUCCESS
        · exact ⟨[], by simp [admin_receive_transaction, hpkg, hv]⟩
        · exact ⟨[], by simp [admin_receive_transaction, hpkg, hv]⟩

/-- C9 witness: a concrete successful user redemption and a concrete
screenshot approval each mint a key whose validity_days is the 30 of the
package row read at that moment. -/
theorem c9_validity_snapshot_witness :
    redeemLookup c4W "T1" 7 = some ⟨"T1", 7, "alice", 1, "TXN1", 100, TokenStatus.active, 0⟩ ∧
    (generate_key c4W "T1" 7 "K" 9).db.keys =
      c4W.keys ++ [⟨"K", 7, 1, "T1", 30, 9, "active"⟩] ∧
    findPending c2W 1 = some c2Row ∧
    (admin_approve_screenshot c2W 1 99 "T3" "K3" 6).db.keys =
      c2W.keys ++ [⟨"K3", 7, 1, "T3", 30, 6, "active"⟩] :=
  ⟨by decide,
   c9_validity_snapshot.1 c4W "T1" 7 "K" 9
     ⟨"T1", 7, "alice", 1, "TXN1", 100, TokenStatus.active, 0⟩ pkgW (by decide) (by decide),
   by decide,
   c9_validity_snapshot.2.2.1 c2W 1 99 "T3" "K3" 6 c2Row pkgW (by decide) (by decide)⟩
